import Mathlib

/-!
Shallow embedding of the process- and memory-management core of the microos
kernel (src/kernel.c, src/kernel.h), together with proofs that settle the
specification claims about the physical page allocator, the two-level page
table builder, the process table, the manufactured context-switch frame, the
scheduler scan of yield, and the trap handler.

Machine integers are modelled as Nat; 32-bit unsigned arithmetic is made
explicit with a reduction modulo 2^32 exactly where the C source computes in
uint32_t (the allocator frontier and the memset length).  Fallible code —
code that can reach the PANIC macro, which prints a diagnostic and then loops
forever — is modelled with an explicit result type carrying the machine state
at the moment of the panic.
-/

namespace MicroOS

/-- Modelled from the spec: PAGE_SIZE, defined in common.h which is absent
from the sources.  The design's SV32 split (page offset = bits 11..0 of a
virtual address) forces PAGE_SIZE = 2^12 = 4096. -/
def PAGE_SIZE : Nat := 4096

/-- Valid bit of a page-table entry (kernel.h line 53). -/
def PAGE_V : Nat := 1

/-- Readable bit of a page-table entry (kernel.h line 54). -/
def PAGE_R : Nat := 2

/-- Writable bit of a page-table entry (kernel.h line 55). -/
def PAGE_W : Nat := 4

/-- Executable bit of a page-table entry (kernel.h line 56). -/
def PAGE_X : Nat := 8

/-- User bit of a page-table entry (kernel.h line 57). -/
def PAGE_U : Nat := 16

/-- Modulus of the 32-bit unsigned arithmetic of paddr_t and size_t. -/
def U32 : Nat := 2 ^ 32

/-- Modelled from the spec: is_aligned(value, align) from common.h, absent
from the sources; the spec requires both addresses passed to the mapper to be
page-aligned, i.e. to be exact multiples of PAGE_SIZE. -/
def is_aligned (value align : Nat) : Bool := value % align == 0

/-- Physical memory (one 32-bit word per 4-byte-aligned byte address; only
addresses that are multiples of 4 are ever used) together with the allocator
frontier next_paddr, the static local of alloc_pages (kernel.c line 22). -/
structure KState where
  mem : Nat → Nat
  next_paddr : Nat

/-- Result of a kernel operation: a value, or a PANIC.  The panic constructor
carries the machine state at the moment the PANIC macro runs; PANIC prints a
diagnostic and then loops forever (kernel.h lines 39-44), so that state is
final. -/
inductive KResult (α : Type) where
  | ok : α → KResult α
  | panic : KState → KResult α

/-- Whether a kernel operation ended in a PANIC. -/
def KResult.isPanic {α : Type} : KResult α → Bool
  | .ok _ => false
  | .panic _ => true

/-- Modelled from the spec: memset(p, 0, len) from common.c, absent from the
sources; the spec says alloc_pages zero-fills the returned region. -/
def memset0 (m : Nat → Nat) (base len : Nat) : Nat → Nat :=
  fun a => if base ≤ a ∧ a < base + len then 0 else m a

/-- Store the 32-bit word v at byte address a. -/
def writeW (m : Nat → Nat) (a v : Nat) : Nat → Nat :=
  fun x => if x = a then v else m x

/-- alloc_pages (kernel.c lines 21-31): read the frontier, advance it by
n * PAGE_SIZE in 32-bit arithmetic, panic if the advanced frontier exceeds
the end of free RAM (the static local has already been advanced when the
PANIC runs), otherwise zero-fill the returned region and return its start.
ram_end stands for the linker symbol __free_ram_end. -/
def alloc_pages (ram_end : Nat) (st : KState) (n : Nat) : KResult (Nat × KState) :=
  let paddr := st.next_paddr
  let next := (st.next_paddr + n * PAGE_SIZE) % U32
  if next > ram_end then
    KResult.panic ⟨st.mem, next⟩
  else
    KResult.ok (paddr, ⟨memset0 st.mem paddr ((n * PAGE_SIZE) % U32), next⟩)

/-- VPN1 of a virtual address: bits 31..22 (kernel.c line 158). -/
def vpn1 (vaddr : Nat) : Nat := (vaddr >>> 22) &&& 0x3ff

/-- VPN0 of a virtual address: bits 21..12 (kernel.c line 166). -/
def vpn0 (vaddr : Nat) : Nat := (vaddr >>> 12) &&& 0x3ff

/-- map_page (kernel.c lines 151-169).  Panics (state unchanged) on an
unaligned virtual or physical address.  If the level-1 entry at index VPN1 of
the root table is not valid, allocates one page for a fresh level-0 table and
installs a level-1 entry holding its physical page number and only the valid
bit.  Then unconditionally overwrites the level-0 slot at index VPN0 with
the leaf entry ((paddr / PAGE_SIZE) << 10) | flags | PAGE_V.  Entry i of a
table whose base byte address is t lives at byte address t + 4 * i. -/
def map_page (ram_end : Nat) (st : KState) (table1 vaddr paddr flags : Nat) :
    KResult KState :=
  if is_aligned vaddr PAGE_SIZE = false then KResult.panic st
  else if is_aligned paddr PAGE_SIZE = false then KResult.panic st
  else
    let l1addr := table1 + 4 * vpn1 vaddr
    let step :=
      if st.mem l1addr &&& PAGE_V = 0 then
        match alloc_pages ram_end st 1 with
        | KResult.panic s => KResult.panic s
        | KResult.ok (pt_paddr, st₁) =>
            KResult.ok (⟨writeW st₁.mem l1addr
              (((pt_paddr / PAGE_SIZE) <<< 10) ||| PAGE_V), st₁.next_paddr⟩ : KState)
      else KResult.ok st
    match step with
    | KResult.panic s => KResult.panic s
    | KResult.ok st₂ =>
        let table0 := (st₂.mem l1addr >>> 10) * PAGE_SIZE
        KResult.ok ⟨writeW st₂.mem (table0 + 4 * vpn0 vaddr)
          (((paddr / PAGE_SIZE) <<< 10) ||| flags ||| PAGE_V), st₂.next_paddr⟩

/-- Two-level SV32 table walk, following the address arithmetic of map_page:
read the level-1 entry at index VPN1 of the root table; if it is not valid
the walk fails; otherwise its bits 31..10 are the page number of the level-0
table, whose entry at index VPN0 is the leaf. -/
def table_walk (m : Nat → Nat) (table1 vaddr : Nat) : Option Nat :=
  let e1 := m (table1 + 4 * vpn1 vaddr)
  if e1 &&& PAGE_V = 0 then none
  else some (m ((e1 >>> 10) * PAGE_SIZE + 4 * vpn0 vaddr))

/-- Helper: a fitting, non-wrapping request succeeds and yields exactly the
advanced-and-zero-filled state. -/
theorem alloc_pages_ok (ram_end : Nat) (st : KState) (n : Nat)
    (hov : st.next_paddr + n * PAGE_SIZE < U32)
    (hfit : st.next_paddr + n * PAGE_SIZE ≤ ram_end) :
    alloc_pages ram_end st n = KResult.ok (st.next_paddr,
      ⟨memset0 st.mem st.next_paddr (n * PAGE_SIZE),
        st.next_paddr + n * PAGE_SIZE⟩) := by
  unfold alloc_pages
  rw [Nat.mod_eq_of_lt hov, Nat.mod_eq_of_lt (show n * PAGE_SIZE < U32 by omega)]
  rw [if_neg (by omega)]

/-- The bits 31..10 of a level-1 entry built for a fresh level-0 table
recover the table's page number. -/
theorem l1entry_shiftRight (x : Nat) : ((x <<< 10) ||| PAGE_V) >>> 10 = x := by
  apply Nat.eq_of_testBit_eq
  intro i
  simp [PAGE_V, Nat.testBit_shiftRight, Nat.testBit_or, Nat.testBit_shiftLeft,
    Nat.testBit_one_eq_true_iff_self_eq_zero]

/-- A level-1 entry built for a fresh level-0 table has the valid bit set. -/
theorem l1entry_valid (x : Nat) : ((x <<< 10) ||| PAGE_V) &&& PAGE_V = 1 := by
  apply Nat.eq_of_testBit_eq
  intro i
  simp only [PAGE_V, Nat.testBit_and, Nat.testBit_or, Nat.testBit_shiftLeft]
  rcases i with _ | j
  · simp
  · have h1 : Nat.testBit 1 (j + 1) = false := by rw [Nat.testBit_succ]; norm_num
    simp [h1]

/-- A level-1 entry built for a fresh level-0 table carries none of the
permission bits R, W, X, U. -/
theorem l1entry_no_perm (x : Nat) :
    ((x <<< 10) ||| PAGE_V) &&& (PAGE_R ||| PAGE_W ||| PAGE_X ||| PAGE_U) = 0 := by
  have h30 : (PAGE_R ||| PAGE_W ||| PAGE_X ||| PAGE_U : Nat) = 30 := by decide
  rw [h30]
  apply Nat.eq_of_testBit_eq
  intro i
  simp only [PAGE_V, Nat.testBit_and, Nat.testBit_or, Nat.testBit_shiftLeft,
    Nat.zero_testBit]
  by_cases h10 : 10 ≤ i
  · have h30b : (30 : Nat).testBit i = false := by
      apply Nat.testBit_eq_false_of_lt
      calc (30 : Nat) < 2 ^ 5 := by norm_num
      _ ≤ 2 ^ i := Nat.pow_le_pow_right (by norm_num) (by omega)
    simp [h30b]
  · have h1 : Nat.testBit 1 i = false ∨ (30 : Nat).testBit i = false := by
      rcases i with _ | j
      · right; decide
      · left; rw [Nat.testBit_succ]; norm_num
    rcases h1 with h | h <;> simp [h, h10]

/-- Reading back the word just stored. -/
theorem writeW_eq (m : Nat → Nat) (a v : Nat) : writeW m a v a = v := by
  unfold writeW
  simp

/-- Reading any other word is unaffected by a store. -/
theorem writeW_ne (m : Nat → Nat) (a v x : Nat) (h : x ≠ a) :
    writeW m a v x = m x := by
  unfold writeW
  simp [h]

/-- Reading outside the zero-filled range is unaffected by memset. -/
theorem memset0_ne (m : Nat → Nat) (base len a : Nat)
    (h : a < base ∨ base + len ≤ a) : memset0 m base len a = m a := by
  unfold memset0
  rcases h with h | h
  · rw [if_neg (by omega)]
  · rw [if_neg (by omega)]

/-- Shape of a successful map_page call whose level-1 entry was invalid: one
page is taken from the frontier for the fresh level-0 table, the level-1 slot
receives that table's entry, and the leaf is written into the fresh table. -/
theorem map_page_ok_fresh (ram_end : Nat) (st : KState)
    (table1 vaddr paddr flags : Nat)
    (hva : vaddr % PAGE_SIZE = 0) (hpa : paddr % PAGE_SIZE = 0)
    (h0 : st.mem (table1 + 4 * vpn1 vaddr) &&& PAGE_V = 0)
    (hal : st.next_paddr % PAGE_SIZE = 0)
    (hov : st.next_paddr + PAGE_SIZE < U32)
    (hfit : st.next_paddr + PAGE_SIZE ≤ ram_end) :
    map_page ram_end st table1 vaddr paddr flags = KResult.ok
      ⟨writeW (writeW (memset0 st.mem st.next_paddr PAGE_SIZE)
          (table1 + 4 * vpn1 vaddr)
          (((st.next_paddr / PAGE_SIZE) <<< 10) ||| PAGE_V))
        (st.next_paddr + 4 * vpn0 vaddr)
        (((paddr / PAGE_SIZE) <<< 10) ||| flags ||| PAGE_V),
       st.next_paddr + PAGE_SIZE⟩ := by
  have hva' : is_aligned vaddr PAGE_SIZE = true := by unfold is_aligned; simp [hva]
  have hpa' : is_aligned paddr PAGE_SIZE = true := by unfold is_aligned; simp [hpa]
  have halloc := alloc_pages_ok ram_end st 1 (by omega) (by omega)
  rw [one_mul] at halloc
  have hdiv : st.next_paddr / PAGE_SIZE * PAGE_SIZE = st.next_paddr :=
    Nat.div_mul_cancel (Nat.dvd_of_mod_eq_zero hal)
  unfold map_page
  rw [hva', hpa']
  rw [if_neg (by simp), if_neg (by simp)]
  dsimp only
  rw [if_pos h0, halloc]
  dsimp only
  rw [writeW_eq, l1entry_shiftRight, hdiv]

/-- Shape of a successful map_page call whose level-1 entry was already
valid: the only effect is overwriting the leaf slot of the existing level-0
table. -/
theorem map_page_ok_valid (ram_end : Nat) (st : KState)
    (table1 vaddr paddr flags : Nat)
    (hva : vaddr % PAGE_SIZE = 0) (hpa : paddr % PAGE_SIZE = 0)
    (h0 : st.mem (table1 + 4 * vpn1 vaddr) &&& PAGE_V ≠ 0) :
    map_page ram_end st table1 vaddr paddr flags = KResult.ok
      ⟨writeW st.mem
        ((st.mem (table1 + 4 * vpn1 vaddr) >>> 10) * PAGE_SIZE + 4 * vpn0 vaddr)
        (((paddr / PAGE_SIZE) <<< 10) ||| flags ||| PAGE_V),
       st.next_paddr⟩ := by
  have hva' : is_aligned vaddr PAGE_SIZE = true := by unfold is_aligned; simp [hva]
  have hpa' : is_aligned paddr PAGE_SIZE = true := by unfold is_aligned; simp [hpa]
  unfold map_page
  rw [hva', hpa']
  rw [if_neg (by simp), if_neg (by simp)]
  dsimp only
  rw [if_neg h0]

/-- Each level-0 or level-1 index selects one of the 1024 four-byte entries
of its page-sized table. -/
theorem vpn0_bound (vaddr : Nat) : 4 * vpn0 vaddr < PAGE_SIZE := by
  have h := Nat.and_le_right (n := vaddr >>> 12) (m := 0x3ff)
  unfold vpn0 PAGE_SIZE
  omega

/-- Each level-1 index selects one of the 1024 four-byte entries of the
page-sized root table. -/
theorem vpn1_bound (vaddr : Nat) : 4 * vpn1 vaddr < PAGE_SIZE := by
  have h := Nat.and_le_right (n := vaddr >>> 22) (m := 0x3ff)
  unfold vpn1 PAGE_SIZE
  omega

/-- C3: after a successful map_page of page-aligned V to page-aligned P with
flags F, the two-level walk of the root at VPN1(V) and VPN0(V) yields a leaf
entry equal to ((P / PAGE_SIZE) << 10) | F | PAGE_V; a level-1 entry
installed for a previously invalid VPN1 slot carries the valid bit and no
permission bits; and a subsequent map_page of the same V to a different P
overwrites that single leaf entry — only the leaf word changes — rather than
creating another. -/
theorem C3_map_page_walk
    (ram_end : Nat) (st : KState) (table1 vaddr paddr flags : Nat)
    (hva : vaddr % PAGE_SIZE = 0) (hpa : paddr % PAGE_SIZE = 0)
    (hal : st.next_paddr % PAGE_SIZE = 0)
    (hov : st.next_paddr + PAGE_SIZE < U32)
    (hfit : st.next_paddr + PAGE_SIZE ≤ ram_end)
    (hroot : table1 + PAGE_SIZE ≤ st.next_paddr)
    (hld : st.mem (table1 + 4 * vpn1 vaddr) &&& PAGE_V ≠ 0 →
      (st.mem (table1 + 4 * vpn1 vaddr) >>> 10) * PAGE_SIZE + PAGE_SIZE ≤ table1 ∨
        table1 + PAGE_SIZE ≤ (st.mem (table1 + 4 * vpn1 vaddr) >>> 10) * PAGE_SIZE) :
    ∃ st', map_page ram_end st table1 vaddr paddr flags = KResult.ok st' ∧
      table_walk st'.mem table1 vaddr =
        some (((paddr / PAGE_SIZE) <<< 10) ||| flags ||| PAGE_V) ∧
      (st.mem (table1 + 4 * vpn1 vaddr) &&& PAGE_V = 0 →
        st'.mem (table1 + 4 * vpn1 vaddr) &&& PAGE_V ≠ 0 ∧
        st'.mem (table1 + 4 * vpn1 vaddr) &&&
          (PAGE_R ||| PAGE_W ||| PAGE_X ||| PAGE_U) = 0) ∧
      (∀ paddr₂ flags₂, paddr₂ % PAGE_SIZE = 0 →
        ∃ st₂, map_page ram_end st' table1 vaddr paddr₂ flags₂ = KResult.ok st₂ ∧
          table_walk st₂.mem table1 vaddr =
            some (((paddr₂ / PAGE_SIZE) <<< 10) ||| flags₂ ||| PAGE_V) ∧
          st₂.next_paddr = st'.next_paddr ∧
          (∀ a, a ≠ (st'.mem (table1 + 4 * vpn1 vaddr) >>> 10) * PAGE_SIZE +
              4 * vpn0 vaddr → st₂.mem a = st'.mem a)) := by
  have hb0 := vpn0_bound vaddr
  have hb1 := vpn1_bound vaddr
  have hdiv : st.next_paddr / PAGE_SIZE * PAGE_SIZE = st.next_paddr :=
    Nat.div_mul_cancel (Nat.dvd_of_mod_eq_zero hal)
  by_cases h0 : st.mem (table1 + 4 * vpn1 vaddr) &&& PAGE_V = 0
  · -- level-1 entry invalid: a fresh level-0 table is allocated
    refine ⟨_, map_page_ok_fresh ram_end st table1 vaddr paddr flags hva hpa h0 hal hov hfit, ?_, ?_, ?_⟩
    all_goals {
      have hne1 : table1 + 4 * vpn1 vaddr ≠ st.next_paddr + 4 * vpn0 vaddr := by omega
      have hm_l1 : (writeW (writeW (memset0 st.mem st.next_paddr PAGE_SIZE)
          (table1 + 4 * vpn1 vaddr)
          (((st.next_paddr / PAGE_SIZE) <<< 10) ||| PAGE_V))
          (st.next_paddr + 4 * vpn0 vaddr)
          (((paddr / PAGE_SIZE) <<< 10) ||| flags ||| PAGE_V))
          (table1 + 4 * vpn1 vaddr) =
          ((st.next_paddr / PAGE_SIZE) <<< 10) ||| PAGE_V := by
        rw [writeW_ne _ _ _ _ hne1, writeW_eq]
      first
      | -- walk goal
        (unfold table_walk
         dsimp only
         rw [hm_l1, if_neg (by rw [l1entry_valid]; decide), l1entry_shiftRight, hdiv,
           writeW_eq])
      | -- L1 entry goal
        (intro _
         dsimp only at hm_l1 ⊢
         rw [hm_l1]
         exact ⟨by rw [l1entry_valid]; decide, l1entry_no_perm _⟩)
      | -- remap goal
        (intro paddr₂ flags₂ hpa₂
         dsimp only at hm_l1 ⊢
         have h0' : (writeW (writeW (memset0 st.mem st.next_paddr PAGE_SIZE)
            (table1 + 4 * vpn1 vaddr)
            (((st.next_paddr / PAGE_SIZE) <<< 10) ||| PAGE_V))
            (st.next_paddr + 4 * vpn0 vaddr)
            (((paddr / PAGE_SIZE) <<< 10) ||| flags ||| PAGE_V))
            (table1 + 4 * vpn1 vaddr) &&& PAGE_V ≠ 0 := by
          rw [hm_l1, l1entry_valid]; decide
         refine ⟨_, map_page_ok_valid ram_end _ table1 vaddr paddr₂ flags₂ hva hpa₂ h0', ?_, rfl, ?_⟩
         · unfold table_walk
           dsimp only
           rw [hm_l1, l1entry_shiftRight, hdiv]
           rw [writeW_ne _ _ _ _ hne1]
           rw [hm_l1, if_neg (by rw [l1entry_valid]; decide), l1entry_shiftRight, hdiv, writeW_eq]
         · intro a ha
           dsimp only
           rw [writeW_ne _ _ _ _ ha])
    }
  · -- level-1 entry already valid
    refine ⟨_, map_page_ok_valid ram_end st table1 vaddr paddr flags hva hpa h0, ?_, ?_, ?_⟩
    all_goals {
      have hdisj := hld h0
      have hne1 : table1 + 4 * vpn1 vaddr ≠
          (st.mem (table1 + 4 * vpn1 vaddr) >>> 10) * PAGE_SIZE + 4 * vpn0 vaddr := by
        omega
      have hm_l1 : (writeW st.mem
          ((st.mem (table1 + 4 * vpn1 vaddr) >>> 10) * PAGE_SIZE + 4 * vpn0 vaddr)
          (((paddr / PAGE_SIZE) <<< 10) ||| flags ||| PAGE_V))
          (table1 + 4 * vpn1 vaddr) = st.mem (table1 + 4 * vpn1 vaddr) :=
        writeW_ne _ _ _ _ hne1
      first
      | -- walk goal
        (unfold table_walk
         dsimp only
         rw [hm_l1, if_neg h0, writeW_eq])
      | -- L1 entry goal
        (intro hc
         exact absurd hc h0)
      | -- remap goal
        (intro paddr₂ flags₂ hpa₂
         dsimp only at hm_l1 ⊢
         have h0' : (writeW st.mem
            ((st.mem (table1 + 4 * vpn1 vaddr) >>> 10) * PAGE_SIZE + 4 * vpn0 vaddr)
            (((paddr / PAGE_SIZE) <<< 10) ||| flags ||| PAGE_V))
            (table1 + 4 * vpn1 vaddr) &&& PAGE_V ≠ 0 := by
          rw [hm_l1]; exact h0
         refine ⟨_, map_page_ok_valid ram_end _ table1 vaddr paddr₂ flags₂ hva hpa₂ h0', ?_, rfl, ?_⟩
         · unfold table_walk
           dsimp only
           rw [hm_l1]
           rw [writeW_ne _ _ _ _ hne1]
           rw [hm_l1, if_neg h0, writeW_eq]
         · intro a ha
           dsimp only
           rw [writeW_ne _ _ _ _ ha])
    }

/-- C9: calling map_page with a virtual or physical address that is not a
multiple of PAGE_SIZE panics with the machine state unchanged — no
page-table entry has been modified and the address is never truncated to an
aligned value. -/
theorem C9_unaligned_map_page_panics_unmodified
    (ram_end : Nat) (st : KState) (table1 vaddr paddr flags : Nat)
    (h : vaddr % PAGE_SIZE ≠ 0 ∨ paddr % PAGE_SIZE ≠ 0) :
    map_page ram_end st table1 vaddr paddr flags = KResult.panic st := by
  unfold map_page is_aligned
  rcases h with h | h
  · simp [h]
  · by_cases hv : vaddr % PAGE_SIZE = 0 <;> simp [hv, h]

/-- C9 witness: mapping virtual address 1 (offset by one byte from a page
boundary) panics with the state unchanged. -/
theorem C9_witness :
    ((1 : Nat) % PAGE_SIZE ≠ 0 ∨ (0 : Nat) % PAGE_SIZE ≠ 0) ∧
      map_page (2 ^ 26) ⟨fun _ => 0, 4096⟩ 0 1 0 PAGE_R =
        KResult.panic ⟨fun _ => 0, 4096⟩ :=
  ⟨Or.inl (by decide),
    C9_unaligned_map_page_panics_unmodified (2 ^ 26) ⟨fun _ => 0, 4096⟩ 0 1 0 PAGE_R
      (Or.inl (by decide))⟩

/-- C6 (amended): in the regime where the 32-bit frontier arithmetic does not
wrap around, alloc_pages panics with the out-of-memory diagnostic exactly
when the frontier advanced by n * PAGE_SIZE exceeds the end of the free-RAM
region; hence every request that still fits succeeds and the first request
that does not fit halts. -/
theorem C6_alloc_pages_oom_iff
    (ram_end : Nat) (st : KState) (n : Nat)
    (hov : st.next_paddr + n * PAGE_SIZE < U32) :
    (alloc_pages ram_end st n).isPanic = true ↔
      ram_end < st.next_paddr + n * PAGE_SIZE := by
  unfold alloc_pages
  rw [Nat.mod_eq_of_lt hov]
  by_cases h : st.next_paddr + n * PAGE_SIZE > ram_end <;>
    simp [h, KResult.isPanic]

/-- C6 witness: with the frontier at 2^26 - PAGE_SIZE and free RAM ending at
2^26, a one-page request fits and succeeds, and a further one-page request
panics. -/
theorem C6_witness :
    ((2 ^ 26 - PAGE_SIZE) + 1 * PAGE_SIZE < U32) ∧
      (((alloc_pages (2 ^ 26) ⟨fun _ => 0, 2 ^ 26 - PAGE_SIZE⟩ 1).isPanic = true ↔
        2 ^ 26 < (2 ^ 26 - PAGE_SIZE) + 1 * PAGE_SIZE)) ∧
      ((2 ^ 26) + 1 * PAGE_SIZE < U32) ∧
      (((alloc_pages (2 ^ 26) ⟨fun _ => 0, 2 ^ 26⟩ 1).isPanic = true ↔
        2 ^ 26 < (2 ^ 26) + 1 * PAGE_SIZE)) :=
  ⟨by decide,
    C6_alloc_pages_oom_iff (2 ^ 26) ⟨fun _ => 0, 2 ^ 26 - PAGE_SIZE⟩ 1 (by decide),
    by decide,
    C6_alloc_pages_oom_iff (2 ^ 26) ⟨fun _ => 0, 2 ^ 26⟩ 1 (by decide)⟩

/-- C6 counterexample: with the frontier at 0 and free RAM ending at 2^26, a
request for 2^20 pages advances the frontier by 2^20 * PAGE_SIZE = 2^32
bytes, which exceeds the end of free RAM, yet alloc_pages does not halt: the
32-bit frontier wraps to 0 and the check passes. -/
theorem C6_counterexample :
    (alloc_pages (2 ^ 26) ⟨fun _ => 0, 0⟩ (2 ^ 20)).isPanic = false ∧
      2 ^ 26 < 0 + 2 ^ 20 * PAGE_SIZE := by
  constructor
  · rfl
  · decide

/-- C5 (amended): in the regime where the 32-bit frontier arithmetic does not
wrap around, each successful alloc_pages call returns the frontier value from
before the call, advances the frontier by exactly n * PAGE_SIZE and
zero-fills the returned region; two consecutive successful calls return
regions whose start addresses differ by exactly the first call's
n * PAGE_SIZE, hence non-overlapping ones. -/
theorem C5_alloc_pages_consecutive
    (ram_end : Nat) (st : KState) (n₁ n₂ : Nat)
    (h₁ : 1 ≤ n₁) (h₂ : 1 ≤ n₂)
    (hov : st.next_paddr + n₁ * PAGE_SIZE + n₂ * PAGE_SIZE < U32)
    (hfit : st.next_paddr + n₁ * PAGE_SIZE + n₂ * PAGE_SIZE ≤ ram_end) :
    ∃ st₁ st₂,
      alloc_pages ram_end st n₁ = KResult.ok (st.next_paddr, st₁) ∧
      st₁.next_paddr = st.next_paddr + n₁ * PAGE_SIZE ∧
      (∀ a, st.next_paddr ≤ a → a < st.next_paddr + n₁ * PAGE_SIZE →
        st₁.mem a = 0) ∧
      alloc_pages ram_end st₁ n₂ =
        KResult.ok (st.next_paddr + n₁ * PAGE_SIZE, st₂) ∧
      st₂.next_paddr = st.next_paddr + n₁ * PAGE_SIZE + n₂ * PAGE_SIZE ∧
      (∀ a, st.next_paddr + n₁ * PAGE_SIZE ≤ a →
        a < st.next_paddr + n₁ * PAGE_SIZE + n₂ * PAGE_SIZE → st₂.mem a = 0) := by
  refine ⟨⟨memset0 st.mem st.next_paddr (n₁ * PAGE_SIZE),
      st.next_paddr + n₁ * PAGE_SIZE⟩,
    ⟨memset0 (memset0 st.mem st.next_paddr (n₁ * PAGE_SIZE))
        (st.next_paddr + n₁ * PAGE_SIZE) (n₂ * PAGE_SIZE),
      st.next_paddr + n₁ * PAGE_SIZE + n₂ * PAGE_SIZE⟩, ?_, rfl, ?_, ?_, rfl, ?_⟩
  · exact alloc_pages_ok ram_end st n₁ (by omega) (by omega)
  · intro a hlo hhi
    simp [memset0, hlo, hhi]
  · exact alloc_pages_ok ram_end
      ⟨memset0 st.mem st.next_paddr (n₁ * PAGE_SIZE), st.next_paddr + n₁ * PAGE_SIZE⟩
      n₂ (by simp; omega) (by simp; omega)
  · intro a hlo hhi
    simp [memset0, hlo, hhi]

/-- C5 witness: from a fresh state with the frontier at 0, one-page requests
return 0 and then PAGE_SIZE, and both returned pages read as zero. -/
theorem C5_witness :
    ∃ st₁ st₂,
      alloc_pages (2 ^ 26) ⟨fun _ => 7, 0⟩ 1 = KResult.ok (0, st₁) ∧
      st₁.next_paddr = 0 + 1 * PAGE_SIZE ∧
      (∀ a, 0 ≤ a → a < 0 + 1 * PAGE_SIZE → st₁.mem a = 0) ∧
      alloc_pages (2 ^ 26) st₁ 1 = KResult.ok (0 + 1 * PAGE_SIZE, st₂) ∧
      st₂.next_paddr = 0 + 1 * PAGE_SIZE + 1 * PAGE_SIZE ∧
      (∀ a, 0 + 1 * PAGE_SIZE ≤ a → a < 0 + 1 * PAGE_SIZE + 1 * PAGE_SIZE →
        st₂.mem a = 0) := by
  have h := C5_alloc_pages_consecutive (2 ^ 26) ⟨fun _ => 7, 0⟩ 1 1
    (by decide) (by decide) (by decide) (by decide)
  exact h

/-- C5 counterexample: a request for 2^20 pages succeeds but, because
2^20 * PAGE_SIZE wraps to 0 in 32-bit arithmetic, the frontier does not
advance by n * PAGE_SIZE and the returned region is not zero-filled (address
5 of the returned region still reads 7). -/
theorem C5_counterexample :
    alloc_pages (2 ^ 26) ⟨fun _ => 7, 0⟩ (2 ^ 20) =
      KResult.ok (0, ⟨memset0 (fun _ => 7) 0 0, 0⟩) ∧
      (0 : Nat) ≠ 0 + 2 ^ 20 * PAGE_SIZE ∧
      memset0 (fun _ => 7) 0 0 5 = 7 := by
  refine ⟨?_, by decide, rfl⟩
  unfold alloc_pages
  norm_num [U32, PAGE_SIZE]


/-- Pages at distinct page numbers occupy disjoint address ranges. -/
theorem pages_disjoint (p q : Nat) (h : p ≠ q) :
    p * PAGE_SIZE + PAGE_SIZE ≤ q * PAGE_SIZE ∨
      q * PAGE_SIZE + PAGE_SIZE ≤ p * PAGE_SIZE := by
  unfold PAGE_SIZE
  omega

/-- VPN1 is one of the 1024 root-table indices. -/
theorem vpn1_lt (vaddr : Nat) : vpn1 vaddr < 1024 := by
  have h := Nat.and_le_right (n := vaddr >>> 22) (m := 0x3ff)
  unfold vpn1
  omega

/-- VPN0 is one of the 1024 level-0-table indices. -/
theorem vpn0_lt (vaddr : Nat) : vpn0 vaddr < 1024 := by
  have h := Nat.and_le_right (n := vaddr >>> 12) (m := 0x3ff)
  unfold vpn0
  omega

/-- C10: a successful map_page modifies only the leaf slot at index VPN0(V)
of the level-0 table reached through VPN1(V), and the level-1 slot at index
VPN1(V) only when that slot was previously invalid; every other entry of the
root table and of every already existing level-0 table is unchanged. -/
theorem C10_map_page_frame
    (ram_end : Nat) (st : KState) (table1 vaddr paddr flags : Nat)
    (hva : vaddr % PAGE_SIZE = 0) (hpa : paddr % PAGE_SIZE = 0)
    (hal : st.next_paddr % PAGE_SIZE = 0)
    (hov : st.next_paddr + PAGE_SIZE < U32)
    (hfit : st.next_paddr + PAGE_SIZE ≤ ram_end)
    (hroot : table1 + PAGE_SIZE ≤ st.next_paddr)
    (hsub : ∀ j, j < 1024 → st.mem (table1 + 4 * j) &&& PAGE_V ≠ 0 →
      (st.mem (table1 + 4 * j) >>> 10) * PAGE_SIZE + PAGE_SIZE ≤ st.next_paddr ∧
      ((st.mem (table1 + 4 * j) >>> 10) * PAGE_SIZE + PAGE_SIZE ≤ table1 ∨
        table1 + PAGE_SIZE ≤ (st.mem (table1 + 4 * j) >>> 10) * PAGE_SIZE))
    (halias : ∀ j j', j < 1024 → j' < 1024 → j ≠ j' →
      st.mem (table1 + 4 * j) &&& PAGE_V ≠ 0 →
      st.mem (table1 + 4 * j') &&& PAGE_V ≠ 0 →
      st.mem (table1 + 4 * j) >>> 10 ≠ st.mem (table1 + 4 * j') >>> 10) :
    ∃ st', map_page ram_end st table1 vaddr paddr flags = KResult.ok st' ∧
      (∀ j, j < 1024 → j ≠ vpn1 vaddr →
        st'.mem (table1 + 4 * j) = st.mem (table1 + 4 * j)) ∧
      (st.mem (table1 + 4 * vpn1 vaddr) &&& PAGE_V ≠ 0 →
        st'.mem (table1 + 4 * vpn1 vaddr) = st.mem (table1 + 4 * vpn1 vaddr)) ∧
      (∀ j k, j < 1024 → k < 1024 →
        st.mem (table1 + 4 * j) &&& PAGE_V ≠ 0 →
        ¬(j = vpn1 vaddr ∧ k = vpn0 vaddr) →
        st'.mem ((st.mem (table1 + 4 * j) >>> 10) * PAGE_SIZE + 4 * k) =
          st.mem ((st.mem (table1 + 4 * j) >>> 10) * PAGE_SIZE + 4 * k)) := by
  have hb0 := vpn0_lt vaddr
  have hb1 := vpn1_lt vaddr
  by_cases h0 : st.mem (table1 + 4 * vpn1 vaddr) &&& PAGE_V = 0
  · refine ⟨_, map_page_ok_fresh ram_end st table1 vaddr paddr flags hva hpa h0 hal hov hfit, ?_, ?_, ?_⟩
    · intro j hj hjne
      dsimp only
      rw [writeW_ne _ _ _ _ (by simp only [PAGE_SIZE] at *; omega)]
      rw [writeW_ne _ _ _ _ (by simp only [PAGE_SIZE] at *; omega)]
      exact memset0_ne _ _ _ _ (by simp only [PAGE_SIZE] at *; omega)
    · intro hcv
      exact absurd h0 hcv
    · intro j k hj hk hjv hnotleaf
      have hj1 : j ≠ vpn1 vaddr := by
        intro he
        rw [he] at hjv
        exact hjv h0
      obtain ⟨hbelow, hdisj⟩ := hsub j hj hjv
      dsimp only
      rw [writeW_ne _ _ _ _ (by simp only [PAGE_SIZE] at *; omega)]
      rw [writeW_ne _ _ _ _ (by simp only [PAGE_SIZE] at *; omega)]
      exact memset0_ne _ _ _ _ (by simp only [PAGE_SIZE] at *; omega)
  · refine ⟨_, map_page_ok_valid ram_end st table1 vaddr paddr flags hva hpa h0, ?_, ?_, ?_⟩
    · intro j hj hjne
      obtain ⟨hbelow, hdisj⟩ := hsub (vpn1 vaddr) hb1 h0
      dsimp only
      exact writeW_ne _ _ _ _ (by simp only [PAGE_SIZE] at *; omega)
    · intro _
      obtain ⟨hbelow, hdisj⟩ := hsub (vpn1 vaddr) hb1 h0
      dsimp only
      exact writeW_ne _ _ _ _ (by simp only [PAGE_SIZE] at *; omega)
    · intro j k hj hk hjv hnotleaf
      dsimp only
      by_cases hjeq : j = vpn1 vaddr
      · have hkne : k ≠ vpn0 vaddr := by
          intro hke
          exact hnotleaf ⟨hjeq, hke⟩
        subst hjeq
        exact writeW_ne _ _ _ _ (by simp only [PAGE_SIZE] at *; omega)
      · have hne := halias j (vpn1 vaddr) hj hb1 hjeq hjv h0
        have hpd := pages_disjoint _ _ hne
        exact writeW_ne _ _ _ _ (by simp only [PAGE_SIZE] at *; omega)


/-- Concrete machine for the C3 and C10 witnesses: the root table at address
0 with every word of memory zero, and the frontier at 4096. -/
def wState : KState := ⟨fun _ => 0, 4096⟩

/-- C3 witness: mapping virtual page 5 (address 20480) to physical page 7
(address 28672) with read/write flags in the concrete machine wState. -/
theorem C3_witness :
    (20480 % PAGE_SIZE = 0 ∧ 28672 % PAGE_SIZE = 0) ∧
    (∃ st', map_page (2 ^ 26) wState 0 20480 28672 (PAGE_R ||| PAGE_W) =
        KResult.ok st' ∧
      table_walk st'.mem 0 20480 =
        some (((28672 / PAGE_SIZE) <<< 10) ||| (PAGE_R ||| PAGE_W) ||| PAGE_V) ∧
      (wState.mem (0 + 4 * vpn1 20480) &&& PAGE_V = 0 →
        st'.mem (0 + 4 * vpn1 20480) &&& PAGE_V ≠ 0 ∧
        st'.mem (0 + 4 * vpn1 20480) &&&
          (PAGE_R ||| PAGE_W ||| PAGE_X ||| PAGE_U) = 0) ∧
      (∀ paddr₂ flags₂, paddr₂ % PAGE_SIZE = 0 →
        ∃ st₂, map_page (2 ^ 26) st' 0 20480 paddr₂ flags₂ = KResult.ok st₂ ∧
          table_walk st₂.mem 0 20480 =
            some (((paddr₂ / PAGE_SIZE) <<< 10) ||| flags₂ ||| PAGE_V) ∧
          st₂.next_paddr = st'.next_paddr ∧
          (∀ a, a ≠ (st'.mem (0 + 4 * vpn1 20480) >>> 10) * PAGE_SIZE +
              4 * vpn0 20480 → st₂.mem a = st'.mem a))) :=
  ⟨⟨by decide, by decide⟩,
    C3_map_page_walk (2 ^ 26) wState 0 20480 28672 (PAGE_R ||| PAGE_W)
      (by decide) (by decide) (by decide) (by decide) (by decide) (by decide)
      (fun h => absurd (by decide) h)⟩

/-- C10 witness: the same concrete mapping in wState leaves every other root
and level-0 entry unchanged. -/
theorem C10_witness :
    (20480 % PAGE_SIZE = 0 ∧ 0 + PAGE_SIZE ≤ wState.next_paddr) ∧
    (∃ st', map_page (2 ^ 26) wState 0 20480 28672 (PAGE_R ||| PAGE_W) =
        KResult.ok st' ∧
      (∀ j, j < 1024 → j ≠ vpn1 20480 →
        st'.mem (0 + 4 * j) = wState.mem (0 + 4 * j)) ∧
      (wState.mem (0 + 4 * vpn1 20480) &&& PAGE_V ≠ 0 →
        st'.mem (0 + 4 * vpn1 20480) = wState.mem (0 + 4 * vpn1 20480)) ∧
      (∀ j k, j < 1024 → k < 1024 →
        wState.mem (0 + 4 * j) &&& PAGE_V ≠ 0 →
        ¬(j = vpn1 20480 ∧ k = vpn0 20480) →
        st'.mem ((wState.mem (0 + 4 * j) >>> 10) * PAGE_SIZE + 4 * k) =
          wState.mem ((wState.mem (0 + 4 * j) >>> 10) * PAGE_SIZE + 4 * k))) :=
  ⟨⟨by decide, by decide⟩,
    C10_map_page_frame (2 ^ 26) wState 0 20480 28672 (PAGE_R ||| PAGE_W)
      (by decide) (by decide) (by decide) (by decide) (by decide) (by decide)
      (fun j hj hv =>
        absurd (show (0 : Nat) &&& PAGE_V = 0 by decide) hv)
      (fun j j' hj hj' hne hv hv' =>
        absurd (show (0 : Nat) &&& PAGE_V = 0 by decide) hv)⟩


/-- Modelled from the spec: the process states PROC_UNUSED and PROC_RUNNABLE
of common.h, absent from the sources; the spec gives state: enum {Unused,
Runnable}. -/
inductive PState where
  | unused : PState
  | runnable : PState
  deriving DecidableEq, Repr

/-- Modelled from the spec: the pid and state fields of struct process
(common.h, absent from the sources; the spec gives pid: integer, 0 = unused
sentinel, > 0 = live, negative reserved for the idle task).  The saved stack
pointer is modelled separately by init_stack_frame and the page-table root by
map_page, which the claims about those parts address on their own; neither
field influences slot selection or scheduling order. -/
structure PCB where
  pid : Int
  state : PState
  deriving DecidableEq, Repr

/-- The process control block created in slot i: pid = i + 1, state
PROC_RUNNABLE (kernel.c lines 201-202). -/
def live_pcb (i : Nat) : PCB := ⟨(i : Int) + 1, PState.runnable⟩

/-- The pid assigned in slot i (kernel.c line 201). -/
def live_pid (i : Nat) : Int := (i : Int) + 1

/-- The slot scan of create_process (kernel.c lines 175-181): index of the
first slot whose state is PROC_UNUSED, none if every slot is taken.  The
process table is a list whose length is PROCS_MAX (the constant lives in
common.h, absent from the sources, so the table size is kept abstract). -/
def find_unused_slot : List PCB → Option Nat
  | [] => none
  | p :: ps =>
    if p.state = PState.unused then some 0
    else (find_unused_slot ps).map (· + 1)

/-- Effect of create_process (kernel.c lines 171-207) on the process table:
claim the first PROC_UNUSED slot i, set its pid to i + 1 and its state to
PROC_RUNNABLE, and return the new table with the assigned pid; none models
the PANIC "No free process slots" when no slot is unused. -/
def create_process (procs : List PCB) : Option (List PCB × Int) :=
  match find_unused_slot procs with
  | none => none
  | some i => some (procs.set i (live_pcb i), live_pid i)

/-- Iterate create_process, collecting the assigned pids in call order. -/
def create_many : Nat → List PCB → Option (List PCB × List Int)
  | 0, procs => some (procs, [])
  | k + 1, procs =>
    match create_process procs with
    | none => none
    | some (procs₁, pid) =>
      match create_many k procs₁ with
      | none => none
      | some (procs₂, pids) => some (procs₂, pid :: pids)

/-- A table whose first k slots hold the claimed processes and whose
remaining r slots are unused. -/
def mixed_table (k r : Nat) : List PCB :=
  (List.range k).map live_pcb ++ List.replicate r ⟨0, PState.unused⟩

theorem find_unused_slot_append (A B : List PCB)
    (hA : ∀ p ∈ A, p.state ≠ PState.unused) :
    find_unused_slot (A ++ B) = (find_unused_slot B).map (· + A.length) := by
  induction A with
  | nil => simp [Option.map_id]
  | cons p ps ih =>
      have hp : p.state ≠ PState.unused := hA p (by simp)
      have hps : ∀ q ∈ ps, q.state ≠ PState.unused := fun q hq => hA q (by simp [hq])
      simp only [List.cons_append, find_unused_slot, if_neg hp, List.append_eq]
      rw [ih hps]
      cases find_unused_slot B with
      | none => rfl
      | some v =>
          exact congrArg some
            (show v + ps.length + 1 = v + (ps.length + 1) by omega)

theorem set_at_append_length (A B : List PCB) (b v : PCB) (n : Nat)
    (hn : A.length = n) : (A ++ b :: B).set n v = A ++ v :: B := by
  subst hn
  induction A with
  | nil => rfl
  | cons p ps ih => simp [List.set, ih]

theorem live_pcb_not_unused : ∀ p ∈ (List.range k).map live_pcb,
    p.state ≠ PState.unused := by
  intro p hp
  simp only [List.mem_map] at hp
  obtain ⟨i, _, rfl⟩ := hp
  simp [live_pcb]

theorem mixed_table_step (k r : Nat) :
    create_process (mixed_table k (r + 1)) =
      some (mixed_table (k + 1) r, live_pid k) := by
  have hfind : find_unused_slot (mixed_table k (r + 1)) = some k := by
    unfold mixed_table
    rw [find_unused_slot_append _ _ live_pcb_not_unused]
    simp [List.replicate, find_unused_slot]
  unfold create_process
  rw [hfind]
  dsimp only
  unfold mixed_table
  rw [List.replicate]
  rw [set_at_append_length _ _ _ _ k (by simp)]
  rw [List.range_succ, List.map_append]
  simp

theorem create_many_mixed (r : Nat) : ∀ k : Nat,
    create_many r (mixed_table k r) =
      some (mixed_table (k + r) 0,
        (List.range r).map (fun t => live_pid (k + t))) := by
  induction r with
  | zero => intro k; simp [create_many]
  | succ r ih =>
      intro k
      unfold create_many
      rw [mixed_table_step k r]
      dsimp only
      rw [ih (k + 1)]
      dsimp only
      simp only [List.range_succ_eq_map, List.map_cons, List.map_map]
      refine congrArg some (Prod.ext ?_ ?_)
      · rw [show k + 1 + r = k + (r + 1) by omega]
      · refine congrArg₂ List.cons (by simp) ?_
        refine congrArg (fun f => List.map f (List.range r)) ?_
        funext t
        simp only [Function.comp_apply]
        rw [show k + 1 + t = k + (t + 1) by omega]

/-- C7: starting from a table of PROCS_MAX unused slots, PROCS_MAX calls to
create_process all succeed, the k-th call claiming slot k - 1 and assigning
pid = k with state PROC_RUNNABLE, and one further call fails with the
no-free-process-slots panic. -/
theorem C7_create_process_exhaustion (P : Nat) :
    create_many P (List.replicate P (⟨0, PState.unused⟩ : PCB)) =
      some ((List.range P).map live_pcb, (List.range P).map (fun t => live_pid t)) ∧
    create_process ((List.range P).map live_pcb) = none := by
  constructor
  · have h := create_many_mixed P 0
    unfold mixed_table at h
    simpa using h
  · unfold create_process
    rw [show (List.range P).map live_pcb = (List.range P).map live_pcb ++ [] by simp]
    rw [find_unused_slot_append _ _ live_pcb_not_unused]
    rfl


/-- The twelve zero pushes of create_process (kernel.c lines 190-192):
*--sp = 0 repeated k times.  The process stack is modelled as a word array
(one 32-bit value per word index) and sp as a word index into it; the C
source walks a uint32_t pointer down from the end of the stack array. -/
def push_zeros : Nat → ((Nat → Nat) × Nat) → ((Nat → Nat) × Nat)
  | 0, s => s
  | k + 1, (m, sp) => push_zeros k (writeW m (sp - 1) 0, sp - 1)

/-- The manufactured frame of create_process (kernel.c lines 187-193): from
the one-past-the-end word index stackWords, push twelve zeros (the
callee-saved registers s11 down to s0), then push the entry point pc; the
result is the stack contents and the final word index, which becomes the
process's saved stack pointer (kernel.c line 203). -/
def init_stack_frame (stack : Nat → Nat) (stackWords pc : Nat) :
    (Nat → Nat) × Nat :=
  let ms := push_zeros 12 (stack, stackWords)
  (writeW ms.1 (ms.2 - 1) pc, ms.2 - 1)

/-- The registers restored by the second half of switch_context (kernel.c
lines 133-148): with the stack pointer at word index sp, ra is loaded from
word offset 0 and s0 .. s11 from word offsets 1 .. 12; sp is then popped by
13 words and ret jumps to ra.  The s field gives register s_i at index i for
i < 12. -/
structure RestoredRegs where
  ra : Nat
  s : Nat → Nat
  sp : Nat

/-- Restore of the callee-saved register set from a stack (kernel.c lines
133-148). -/
def switch_context_restore (m : Nat → Nat) (sp : Nat) : RestoredRegs :=
  ⟨m sp, fun i => m (sp + 1 + i), sp + 13⟩

theorem push_zeros_spec (k : Nat) : ∀ (m : Nat → Nat) (sp : Nat), k ≤ sp →
    (push_zeros k (m, sp)).2 = sp - k ∧
    (∀ a, sp - k ≤ a → a < sp → (push_zeros k (m, sp)).1 a = 0) ∧
    (∀ a, a < sp - k ∨ sp ≤ a → (push_zeros k (m, sp)).1 a = m a) := by
  induction k with
  | zero =>
      intro m sp _
      refine ⟨by simp [push_zeros], ?_, ?_⟩
      · intro a h1 h2
        omega
      · intro a _
        rfl
  | succ k ih =>
      intro m sp hk
      have hstep : push_zeros (k + 1) (m, sp) =
          push_zeros k (writeW m (sp - 1) 0, sp - 1) := rfl
      obtain ⟨hsp, hzero, hkeep⟩ := ih (writeW m (sp - 1) 0) (sp - 1) (by omega)
      refine ⟨by rw [hstep, hsp]; omega, ?_, ?_⟩
      · intro a h1 h2
        rw [hstep]
        by_cases ha : a < sp - 1
        · exact hzero a (by omega) ha
        · have haeq : a = sp - 1 := by omega
          rw [hkeep a (by omega), haeq, writeW_eq]
      · intro a ha
        rw [hstep, hkeep a (by omega), writeW_ne _ _ _ _ (by omega)]

/-- C2: the frame manufactured by create_process is such that the first
switch_context into the process's saved stack pointer restores the return
address slot as the entry point and the twelve callee-saved registers s0
through s11 as zero, so execution begins at the entry point with all twelve
callee-saved registers equal to zero. -/
theorem C2_first_switch_restores_entry (stack : Nat → Nat) (W pc : Nat)
    (hW : 13 ≤ W) :
    (switch_context_restore (init_stack_frame stack W pc).1
      (init_stack_frame stack W pc).2).ra = pc ∧
    (∀ i, i < 12 →
      (switch_context_restore (init_stack_frame stack W pc).1
        (init_stack_frame stack W pc).2).s i = 0) := by
  obtain ⟨hsp, hzero, hkeep⟩ := push_zeros_spec 12 stack W (by omega)
  constructor
  · show (init_stack_frame stack W pc).1 (init_stack_frame stack W pc).2 = pc
    unfold init_stack_frame
    dsimp only
    rw [writeW_eq]
  · intro i hi
    show (init_stack_frame stack W pc).1
      ((init_stack_frame stack W pc).2 + 1 + i) = 0
    unfold init_stack_frame
    dsimp only
    rw [writeW_ne _ _ _ _ (by omega)]
    exact hzero _ (by omega) (by omega)

/-- C2 witness: with a 2048-word stack initially filled with the value 9 and
entry point 4242, the restored return address is 4242 and the restored
callee-saved registers are zero. -/
theorem C2_witness :
    (13 ≤ 2048) ∧
    ((switch_context_restore (init_stack_frame (fun _ => 9) 2048 4242).1
        (init_stack_frame (fun _ => 9) 2048 4242).2).ra = 4242 ∧
      (∀ i, i < 12 →
        (switch_context_restore (init_stack_frame (fun _ => 9) 2048 4242).1
          (init_stack_frame (fun _ => 9) 2048 4242).2).s i = 0)) :=
  ⟨by decide, C2_first_switch_restores_entry (fun _ => 9) 2048 4242 (by decide)⟩


/-- The slot index examined by iteration i of the scan in yield (kernel.c
line 309): (current_proc->pid + i) % PROCS_MAX, computed in C's int
arithmetic, whose % is the truncated remainder Int.tmod (negative when the
dividend is negative). -/
def scan_index (cur_pid : Int) (i : Nat) (procsMax : Nat) : Int :=
  Int.tmod (cur_pid + (i : Int)) (procsMax : Int)

/-- The loop of yield (kernel.c lines 308-314) at iteration i with the given
number of iterations left; PROCS_MAX is the length of procs.  some (some p)
means the loop selected p by break; some none means the loop ran to
completion, leaving the initial candidate (the idle task, kernel.c line
306); none means the iteration computed a slot index outside the procs
array, an out-of-bounds read and so undefined behavior in the C source. -/
def yield_scan (procs : List PCB) (cur_pid : Int) :
    Nat → Nat → Option (Option PCB)
  | _, 0 => some none
  | i, fuel + 1 =>
    let idx := scan_index cur_pid i procs.length
    if 0 ≤ idx then
      match procs.get? idx.toNat with
      | none => none
      | some p =>
        if p.state = PState.runnable ∧ 0 < p.pid then some (some p)
        else yield_scan procs cur_pid (i + 1) fuel
    else none

/-- The selection made by yield (kernel.c lines 305-317): run the scan for
PROCS_MAX iterations starting at i = 0; the first slot in scan order whose
state is PROC_RUNNABLE and whose pid is strictly positive becomes the next
task, with the idle task as the fallback. -/
def yield_next (procs : List PCB) (idle : PCB) (cur_pid : Int) : Option PCB :=
  (yield_scan procs cur_pid 0 procs.length).map (fun r => r.getD idle)

/-- The scan described by the claim, parameterized by its starting slot
index: examine PROCS_MAX slots in consecutive (mod PROCS_MAX) order from
start; the first whose state is PROC_RUNNABLE and whose pid is strictly
positive is selected, and the idle task if no such slot exists. -/
def claim_scan (procs : List PCB) (idle : PCB) (start : Nat) : PCB :=
  match (((List.range procs.length).map
      (fun i => (start + i) % procs.length)).filterMap
        (fun ix => procs.get? ix)).find?
      (fun p => decide (p.state = PState.runnable) && decide (0 < p.pid)) with
  | some p => p
  | none => idle

/-- A nonnegative dividend makes C's truncated remainder agree with the
mathematical remainder of the magnitudes. -/
theorem tmod_nonneg_eq (a : Int) (b : Nat) (ha : 0 ≤ a) (hb : 0 < b) :
    Int.tmod a (b : Int) = ((a.toNat % b : Nat) : Int) := by
  rw [Int.tmod_eq_emod ha (by positivity)]
  conv_lhs => rw [← Int.toNat_of_nonneg ha]
  norm_cast

/-- C's truncated remainder of -1 by PROCS_MAX ≥ 2 is -1, not
PROCS_MAX - 1. -/
theorem neg_one_tmod (P : Nat) (hP : 2 ≤ P) : Int.tmod (-1) (P : Int) = -1 := by
  show Int.tmod (Int.negSucc 0) (Int.ofNat P) = -1
  unfold Int.tmod
  simp only []
  rw [Nat.mod_eq_of_lt (by omega)]
  rfl

/-- Characterization of the yield loop for a nonnegative current pid:
starting at iteration i with the given fuel, the loop returns the first
runnable positive-pid hit among the slots at indices
(cur.toNat + i + t) % PROCS_MAX for t < fuel. -/
theorem yield_scan_eq (procs : List PCB) (cur_pid : Int)
    (hP : 0 < procs.length) (hcur : 0 ≤ cur_pid) : ∀ (fuel i : Nat),
    yield_scan procs cur_pid i fuel =
      some ((((List.range fuel).map
          (fun t => (cur_pid.toNat + i + t) % procs.length)).filterMap
            (fun ix => procs.get? ix)).find?
          (fun p => decide (p.state = PState.runnable) && decide (0 < p.pid))) := by
  intro fuel
  induction fuel with
  | zero => intro i; rfl
  | succ fuel ih =>
      intro i
      have ht : (cur_pid + (i : Int)).toNat = cur_pid.toNat + i := by omega
      have hidx : scan_index cur_pid i procs.length =
          (((cur_pid.toNat + i) % procs.length : Nat) : Int) := by
        unfold scan_index
        rw [tmod_nonneg_eq _ _ (by omega) hP, ht]
      have hlt : (cur_pid.toNat + i) % procs.length < procs.length :=
        Nat.mod_lt _ hP
      have hget : procs.get? ((cur_pid.toNat + i) % procs.length) =
          some (procs.get ⟨(cur_pid.toNat + i) % procs.length, hlt⟩) :=
        List.get?_eq_get hlt
      rw [show yield_scan procs cur_pid i (fuel + 1) =
          (if 0 ≤ scan_index cur_pid i procs.length then
            match procs.get? (scan_index cur_pid i procs.length).toNat with
            | none => none
            | some p =>
              if p.state = PState.runnable ∧ 0 < p.pid then some (some p)
              else yield_scan procs cur_pid (i + 1) fuel
          else none) from rfl]
      rw [hidx, if_pos (by positivity), Int.toNat_natCast, hget]
      rw [List.range_succ_eq_map, List.map_cons, List.filterMap_cons]
      rw [show cur_pid.toNat + i + 0 = cur_pid.toNat + i by omega]
      rw [hget]
      dsimp only
      by_cases hsel : (procs.get ⟨(cur_pid.toNat + i) % procs.length,
          hlt⟩).state = PState.runnable ∧
          0 < (procs.get ⟨(cur_pid.toNat + i) % procs.length, hlt⟩).pid
      · rw [if_pos hsel]
        rw [List.find?_cons_of_pos _
          (by simp only [List.get_eq_getElem] at hsel; simp [hsel.1, hsel.2])]
      · rw [if_neg hsel]
        rw [List.find?_cons_of_neg _
          (by simp only [List.get_eq_getElem] at hsel; simpa using hsel)]
        rw [ih (i + 1)]
        rw [List.map_map]
        have hmap : (List.range fuel).map
            ((fun t => (cur_pid.toNat + i + t) % procs.length) ∘ Nat.succ) =
            (List.range fuel).map
            (fun t => (cur_pid.toNat + (i + 1) + t) % procs.length) := by
          refine congrArg (fun f => List.map f (List.range fuel)) ?_
          funext t
          simp only [Function.comp_apply]
          congr 1
          omega
        rw [hmap]

/-- C1 (amended): for a scheduler state whose current process has a strictly
positive pid, yield scans the process slots starting at index
current.pid mod PROCS_MAX (not (current.pid + 1) mod PROCS_MAX), examining
at most PROCS_MAX slots in consecutive order; the first slot whose state is
PROC_RUNNABLE and whose pid is strictly positive is selected, and the idle
task is selected if no such slot exists. -/
theorem C1_yield_round_robin (procs : List PCB) (idle : PCB) (cur_pid : Int)
    (hP : 0 < procs.length) (hpid : 0 < cur_pid) :
    yield_next procs idle cur_pid =
      some (claim_scan procs idle (cur_pid.toNat % procs.length)) := by
  unfold yield_next claim_scan
  rw [yield_scan_eq procs cur_pid hP (by omega) procs.length 0]
  rw [show ((List.range procs.length).map
      (fun t => (cur_pid.toNat % procs.length + t) % procs.length)) =
      ((List.range procs.length).map
      (fun t => (cur_pid.toNat + 0 + t) % procs.length)) from ?_]
  · cases (((List.range procs.length).map
        (fun t => (cur_pid.toNat + 0 + t) % procs.length)).filterMap
          (fun ix => procs.get? ix)).find?
        (fun p => decide (p.state = PState.runnable) && decide (0 < p.pid)) with
    | none => rfl
    | some p => rfl
  · refine congrArg (fun f => List.map f (List.range procs.length)) ?_
    funext t
    rw [Nat.mod_add_mod]
    congr 1

/-- C1 counterexample: three runnable processes in slots 0, 1, 2 with pids
1, 2, 3, the current process being pid 1.  The code scans from slot
(1 + 0) % 3 = 1 and selects pid 2; the scan the claim describes starts at
slot (1 + 1) mod 3 = 2 and selects pid 3. -/
theorem C1_counterexample :
    yield_next
        [⟨1, PState.runnable⟩, ⟨2, PState.runnable⟩, ⟨3, PState.runnable⟩]
        ⟨-1, PState.runnable⟩ 1 = some ⟨2, PState.runnable⟩ ∧
    claim_scan
        [⟨1, PState.runnable⟩, ⟨2, PState.runnable⟩, ⟨3, PState.runnable⟩]
        ⟨-1, PState.runnable⟩ (((1 : Int) + 1).toNat % 3) =
      ⟨3, PState.runnable⟩ := by
  constructor
  · rfl
  · rfl

/-- C4 is false of the code as written: when the current process is the idle
task, whose pid is -1 (kernel.c line 374), iteration i = 0 of the scan
computes the slot index (-1 + 0) % PROCS_MAX = -1 in C's int arithmetic,
which lies outside [0, PROCS_MAX), so the scan reads procs[-1], outside the
procs array. -/
theorem C4_idle_scan_index_negative (P : Nat) (hP : 2 ≤ P) :
    scan_index (-1) 0 P = -1 ∧
      ¬(0 ≤ scan_index (-1) 0 P ∧ scan_index (-1) 0 P < (P : Int)) := by
  have h : scan_index (-1) 0 P = -1 := by
    unfold scan_index
    rw [show (-1 : Int) + ((0 : Nat) : Int) = -1 by norm_num]
    exact neg_one_tmod P hP
  exact ⟨h, by rw [h]; omega⟩

/-- C4 witness: with PROCS_MAX = 8 the out-of-bounds index is computed, and
the scan of the very first yield of the kernel (current process = idle with
pid -1, slots 1 and 2 runnable as created by kernel_main) aborts as
undefined behavior. -/
theorem C4_witness :
    ((2 : Nat) ≤ 8) ∧
    (scan_index (-1) 0 8 = -1 ∧
      ¬(0 ≤ scan_index (-1) 0 8 ∧ scan_index (-1) 0 8 < ((8 : Nat) : Int))) :=
  ⟨by decide, C4_idle_scan_index_negative 8 (by decide)⟩


/-- C1 witness: with current pid 1 among three runnable slots, the selection
equals the amended scan started at slot 1 % 3. -/
theorem C1_witness :
    ((0 : Nat) <
        ([⟨1, PState.runnable⟩, ⟨2, PState.runnable⟩, ⟨3, PState.runnable⟩] :
          List PCB).length ∧ (0 : Int) < 1) ∧
    yield_next
        [⟨1, PState.runnable⟩, ⟨2, PState.runnable⟩, ⟨3, PState.runnable⟩]
        ⟨-1, PState.runnable⟩ 1 =
      some (claim_scan
        [⟨1, PState.runnable⟩, ⟨2, PState.runnable⟩, ⟨3, PState.runnable⟩]
        ⟨-1, PState.runnable⟩ ((1 : Int).toNat %
          ([⟨1, PState.runnable⟩, ⟨2, PState.runnable⟩, ⟨3, PState.runnable⟩] :
            List PCB).length)) :=
  ⟨⟨by decide, by decide⟩,
    C1_yield_round_robin
      [⟨1, PState.runnable⟩, ⟨2, PState.runnable⟩, ⟨3, PState.runnable⟩]
      ⟨-1, PState.runnable⟩ 1 (by decide) (by decide)⟩

/-- The three control and status registers read by handle_trap (kernel.c
lines 101-103): scause (the trap cause), stval (the faulting address or
value) and sepc (the program counter at the time of the trap), supplied by
the hardware. -/
structure TrapCSRs where
  scause : Nat
  stval : Nat
  sepc : Nat

/-- Outcome of a kernel code path that prints and possibly halts: the
console output and whether execution is halted forever. -/
structure ConsoleOutcome where
  out : List Char
  halted : Bool

/-- Modelled from the spec: the formatted-output helper printf of common.c,
absent from the sources ("a simple wrapper over the console service"),
restricted to the %x conversion used by the trap handler: literal characters
are emitted verbatim and each %x consumes one argument, printed in
hexadecimal (Nat.toDigits 16). -/
def format_output : List Char → List Nat → List Char
  | [], _ => []
  | '%' :: 'x' :: rest, arg :: args =>
      Nat.toDigits 16 arg ++ format_output rest args
  | '%' :: 'x' :: rest, [] => format_output rest []
  | c :: rest, args => c :: format_output rest args

/-- The PANIC macro (kernel.h lines 39-44): print the formatted diagnostic,
then loop forever, halting execution permanently. -/
def panic_with (fmt : List Char) (args : List Nat) : ConsoleOutcome :=
  ⟨format_output fmt args, true⟩

/-- handle_trap (kernel.c lines 99-108): read scause, stval and sepc from
the trap CSRs and PANIC with the diagnostic "unexpected trap scause=%x,
stval=%x, sepc=%x" carrying exactly those three values; every cause takes
this single path — no cause is recognized or recovered from. -/
def handle_trap (csrs : TrapCSRs) : ConsoleOutcome :=
  panic_with ("unexpected trap scause=%x, stval=%x, sepc=%x".toList)
    [csrs.scause, csrs.stval, csrs.sepc]

/-- C8: for every trap cause, faulting value and faulting program counter in
the hardware trap-state registers, handle_trap emits a diagnostic reporting
exactly those three values, in order, embedded in the fixed diagnostic text,
and then halts permanently; no trap cause is recognized or recovered from. -/
theorem C8_handle_trap_reports_and_halts (csrs : TrapCSRs) :
    handle_trap csrs =
      ⟨"unexpected trap scause=".toList ++ Nat.toDigits 16 csrs.scause ++
        ", stval=".toList ++ Nat.toDigits 16 csrs.stval ++
        ", sepc=".toList ++ Nat.toDigits 16 csrs.sepc, true⟩ := by
  unfold handle_trap panic_with
  refine congrArg (fun o => ConsoleOutcome.mk o true) ?_
  show format_output ("unexpected trap scause=%x, stval=%x, sepc=%x".toList)
    [csrs.scause, csrs.stval, csrs.sepc] = _
  simp only [String.toList]
  simp [format_output]

end MicroOS
